import Mathlib

/-!
Verification of the transaction-assembly pipeline of the read-rpc tx-indexer.

The definitions below translate the Rust sources into Lean:
  - `readnode-primitives/src/lib.rs`: the collecting-transaction data model,
    the finality walk, the freeze into `TransactionDetails`, the
    local-receipt filter and the versioned borsh codec;
  - `tx-indexer/src/main.rs`: the per-block driver step;
  - `tx-indexer/src/config.rs`: starting-height selection;
  - `database/src/postgres/rpc_server.rs`: the state-key listing.

The external `near_indexer_primitives` view types are reduced to the fields
the engine reads, as listed in the specification's data model.
-/

deriving instance DecidableEq for Except

namespace ReadRpc

/-- Modelled from the spec: `CryptoHash` is an opaque fixed-size 32-byte
identifier (spec section 3), modelled as a natural number below `256 ^ 32`
where serialization is concerned. -/
abbrev CryptoHash := Nat

/-- Modelled from the spec: account identifiers are opaque text; modelled as
their byte sequence. -/
abbrev AccountId := List Nat

/-- Modelled from the spec: of `views::SignedTransactionView` the engine reads
only `hash`, `signer_id` and `receiver_id` (spec section 3). -/
structure SignedTransactionView where
  hash : CryptoHash
  signer_id : AccountId
  receiver_id : AccountId
  deriving DecidableEq

/-- Modelled from the spec: of `views::ReceiptView` the engine reads only
`receipt_id` (spec section 3). -/
structure ReceiptView where
  receipt_id : CryptoHash
  deriving DecidableEq

/-- `views::ExecutionStatusView`: tagged variant with cases `Unknown`,
`Failure(e)`, `SuccessValue(bytes)`, `SuccessReceiptId(hash)`; the error and
value payloads are modelled as opaque byte sequences. -/
inductive ExecutionStatusView where
  | unknown
  | failure (e : List Nat)
  | successValue (v : List Nat)
  | successReceiptId (receipt_id : CryptoHash)
  deriving DecidableEq

/-- Modelled from the spec: of `views::ExecutionOutcomeView` the engine reads
only `receipt_ids` and `status` (spec section 3). -/
structure ExecutionOutcomeView where
  receipt_ids : List CryptoHash
  status : ExecutionStatusView
  deriving DecidableEq

/-- `views::ExecutionOutcomeWithIdView`, reduced to `id` (the hash this outcome
resolves) and the inner `outcome`. -/
structure ExecutionOutcomeWithIdView where
  id : CryptoHash
  outcome : ExecutionOutcomeView
  deriving DecidableEq

/-- `views::FinalExecutionStatus`: `NotStarted`, `Started`, `Failure(e)`,
`SuccessValue(bytes)` (variant order as upstream). -/
inductive FinalExecutionStatus where
  | notStarted
  | started
  | failure (e : List Nat)
  | successValue (v : List Nat)
  deriving DecidableEq

/-- `IndexerExecutionOutcomeWithOptionalReceipt`, reduced to the
`execution_outcome` field, the only one `from_indexer_tx` reads. -/
structure IndexerExecutionOutcomeWithOptionalReceipt where
  execution_outcome : ExecutionOutcomeWithIdView
  deriving DecidableEq

/-- `IndexerTransactionWithOutcome`: the indexed transaction view together with
its own execution outcome. -/
structure IndexerTransactionWithOutcome where
  transaction : SignedTransactionView
  outcome : IndexerExecutionOutcomeWithOptionalReceipt
  deriving DecidableEq

/-- `readnode_primitives::CollectingTransactionDetails`. -/
structure CollectingTransactionDetails where
  transaction : SignedTransactionView
  receipts : List ReceiptView
  execution_outcomes : List ExecutionOutcomeWithIdView
  block_height : Nat
  deriving DecidableEq

/-- `readnode_primitives::TransactionKey`: (transaction hash, block height). -/
structure TransactionKey where
  transaction_hash : CryptoHash
  block_height : Nat
  deriving DecidableEq

/-- `TransactionKey::new`. -/
def TransactionKey.new (transaction_hash : CryptoHash) (block_height : Nat) :
    TransactionKey :=
  { transaction_hash, block_height }

/-- `readnode_primitives::TransactionDetails` with the source's field order
(`receipts`, `receipts_outcome`, `status`, `transaction`,
`transaction_outcome`). -/
structure TransactionDetails where
  receipts : List ReceiptView
  receipts_outcome : List ExecutionOutcomeWithIdView
  status : FinalExecutionStatus
  transaction : SignedTransactionView
  transaction_outcome : ExecutionOutcomeWithIdView
  deriving DecidableEq

/-- `CollectingTransactionDetails::from_indexer_tx`: seed the entry with no
receipts and the transaction's own execution outcome. -/
def CollectingTransactionDetails.from_indexer_tx
    (transaction : IndexerTransactionWithOutcome) (block_height : Nat) :
    CollectingTransactionDetails :=
  { transaction := transaction.transaction
    receipts := []
    execution_outcomes := [transaction.outcome.execution_outcome]
    block_height }

/-- `CollectingTransactionDetails::transaction_key`. -/
def CollectingTransactionDetails.transaction_key
    (c : CollectingTransactionDetails) : TransactionKey :=
  TransactionKey.new c.transaction.hash c.block_height

/-- The loop body of `CollectingTransactionDetails::final_status`: the Rust
`find_map` over the outcome list with a captured mutable `looking_for_id`.
The scan moves forward through the list once; a `SuccessReceiptId` updates the
id being looked for and the scan continues with the remaining elements only.
`num_outcomes` is `self.execution_outcomes.len()`, computed before the scan. -/
def findStatusFrom (num_outcomes : Nat) :
    CryptoHash → List ExecutionOutcomeWithIdView → Option FinalExecutionStatus
  | _, [] => none
  | looking_for_id, outcome_with_id :: rest =>
    if outcome_with_id.id = looking_for_id then
      match outcome_with_id.outcome.status with
      | .unknown =>
        if num_outcomes = 1 then some .notStarted else some .started
      | .failure e => some (.failure e)
      | .successValue v => some (.successValue v)
      | .successReceiptId next => findStatusFrom num_outcomes next rest
    else
      findStatusFrom num_outcomes looking_for_id rest

/-- `CollectingTransactionDetails::final_status`. -/
def CollectingTransactionDetails.final_status
    (c : CollectingTransactionDetails) : Option FinalExecutionStatus :=
  findStatusFrom c.execution_outcomes.length c.transaction.hash
    c.execution_outcomes

/-- `CollectingTransactionDetails::to_final_transaction_result`: freeze the
entry when the finality walk concludes. `split_off(1)` leaves the first
outcome (the transaction's own) as `transaction_outcome` and the rest as
`receipts_outcome`; the empty-list arm models the `unwrap` panic path, which
is unreachable because a concluded walk needs at least one outcome. -/
def CollectingTransactionDetails.to_final_transaction_result
    (c : CollectingTransactionDetails) : Except String TransactionDetails :=
  match c.final_status with
  | some status =>
    match c.execution_outcomes with
    | [] => .error "panic: pop on empty execution_outcomes"
    | transaction_outcome :: receipts_outcome =>
      .ok { receipts := c.receipts
            receipts_outcome
            status
            transaction := c.transaction
            transaction_outcome }
  | none => .error "Results should resolve to a final outcome"

/-- Follows the spec's words (section 4.3, finality walk): starting from the
transaction hash, at each step locate an outcome whose id equals the current
id anywhere in the entry's outcome list; fuel bounds the number of chain
steps. This is the walk the claim describes, to be compared with
`final_status`. -/
def finalStatusSpecWalk :
    Nat → CryptoHash → Nat → List ExecutionOutcomeWithIdView →
    Option FinalExecutionStatus
  | 0, _, _, _ => none
  | fuel + 1, looking_for_id, num_outcomes, outcomes =>
    match outcomes.find? (fun o => o.id == looking_for_id) with
    | none => none
    | some outcome_with_id =>
      match outcome_with_id.outcome.status with
      | .unknown =>
        if num_outcomes = 1 then some .notStarted else some .started
      | .failure e => some (.failure e)
      | .successValue v => some (.successValue v)
      | .successReceiptId next =>
        finalStatusSpecWalk fuel next num_outcomes outcomes

/-- The forward-only finality walk that `final_status` actually performs,
stated as an inductive relation: the scan may skip non-matching outcomes, and
after a matching `SuccessReceiptId` it continues strictly after the match. -/
inductive ForwardWalk (num_outcomes : Nat) :
    CryptoHash → List ExecutionOutcomeWithIdView → FinalExecutionStatus → Prop
  | skip {id o rest s} :
      o.id ≠ id → ForwardWalk num_outcomes id rest s →
      ForwardWalk num_outcomes id (o :: rest) s
  | unknownSingle {id o rest} :
      o.id = id → o.outcome.status = .unknown → num_outcomes = 1 →
      ForwardWalk num_outcomes id (o :: rest) .notStarted
  | unknownMulti {id o rest} :
      o.id = id → o.outcome.status = .unknown → num_outcomes ≠ 1 →
      ForwardWalk num_outcomes id (o :: rest) .started
  | failed {id o rest e} :
      o.id = id → o.outcome.status = .failure e →
      ForwardWalk num_outcomes id (o :: rest) (.failure e)
  | succeeded {id o rest v} :
      o.id = id → o.outcome.status = .successValue v →
      ForwardWalk num_outcomes id (o :: rest) (.successValue v)
  | chain {id o rest next s} :
      o.id = id → o.outcome.status = .successReceiptId next →
      ForwardWalk num_outcomes next rest s →
      ForwardWalk num_outcomes id (o :: rest) s

/-- `views::FinalExecutionOutcomeView` (the fields the projection copies). -/
structure FinalExecutionOutcomeView where
  status : FinalExecutionStatus
  transaction : SignedTransactionView
  transaction_outcome : ExecutionOutcomeWithIdView
  receipts_outcome : List ExecutionOutcomeWithIdView
  deriving DecidableEq

/-- `views::FinalExecutionOutcomeWithReceiptView`. -/
structure FinalExecutionOutcomeWithReceiptView where
  final_outcome : FinalExecutionOutcomeView
  receipts : List ReceiptView
  deriving DecidableEq

/-- `TransactionDetails::to_final_execution_outcome`. -/
def TransactionDetails.to_final_execution_outcome (td : TransactionDetails) :
    FinalExecutionOutcomeView :=
  { status := td.status
    transaction := td.transaction
    transaction_outcome := td.transaction_outcome
    receipts_outcome := td.receipts_outcome }

/-- The `filter` closure of `to_final_execution_outcome_with_receipts`, run
over the receipt list. For each receipt, when `same` (signer equals receiver)
holds the closure dereferences `receipt_ids.first()` through `expect`; a
missing first id is the panic, modelled as `none`. The closure is evaluated
per element, so an empty receipt list never reaches the `expect`. -/
def filterLocalReceipts (same : Bool) (first_receipt_id : Option CryptoHash) :
    List ReceiptView → Option (List ReceiptView)
  | [] => some []
  | receipt :: rest =>
    if same then
      match first_receipt_id with
      | none => none
      | some h0 =>
        match filterLocalReceipts same first_receipt_id rest with
        | none => none
        | some l => some (if receipt.receipt_id = h0 then l else receipt :: l)
    else
      match filterLocalReceipts same first_receipt_id rest with
      | none => none
      | some l => some (receipt :: l)

/-- `TransactionDetails::to_final_execution_outcome_with_receipts`: drop the
local receipt (the receipt the transaction was converted into) when signer and
receiver coincide; `none` models the `expect` panic on an absent first
receipt id. -/
def TransactionDetails.to_final_execution_outcome_with_receipts
    (td : TransactionDetails) : Option FinalExecutionOutcomeWithReceiptView :=
  match filterLocalReceipts
      (decide (td.transaction.signer_id = td.transaction.receiver_id))
      td.transaction_outcome.outcome.receipt_ids.head? td.receipts with
  | none => none
  | some receipts =>
    some { final_outcome := td.to_final_execution_outcome, receipts }

/-- `tx-indexer/src/main.rs::handle_streamer_message`, as a function of the
block's collection result and the health of the cursor write. The collection
result (`futures::try_join!(tx_future)`) is matched only to log; then
`update_meta` runs unconditionally. Returns the meta-table entry after the
step together with the driver's result (`Ok(height)` or the propagated
`update_meta` error). -/
def handle_streamer_message (tx_result : Except String Unit)
    (meta_write_ok : Bool) (block_height : Nat) (meta : Option Nat) :
    Option Nat × Except String Nat :=
  match tx_result with
  | .ok _ =>
    -- tracing::debug: collecting transaction details successful
    if meta_write_ok then (some block_height, .ok block_height)
    else (meta, .error "update_meta failed")
  | .error _ =>
    -- tracing::error: an error occurred during collecting transaction details
    if meta_write_ok then (some block_height, .ok block_height)
    else (meta, .error "update_meta failed")

/-- `tx-indexer/src/config.rs::StartOptions`. -/
inductive StartOptions where
  | fromBlock (height : Nat)
  | fromInterruption
  | fromLatest
  deriving DecidableEq

/-- `tx-indexer/src/config.rs::get_start_block_height`. The meta-table query
is modelled by `query_row`: `.error` is a failed query or row typing (the `?`
propagates it), `.ok none` is `single_row()` returning no row (fall back to
the final block height), `.ok (some v)` is the stored cursor as a big
integer; `to_u64` panics outside `[0, 2^64)` (the `expect`). `final_height`
models `final_block_height`, the chain's final block. -/
def get_start_block_height (opts : StartOptions)
    (query_row : Except String (Option Int)) (final_height : Nat) :
    Except String Nat :=
  match opts with
  | .fromBlock height => .ok height
  | .fromInterruption =>
    match query_row with
    | .error e => .error e
    | .ok (some v) =>
      if 0 ≤ v ∧ v < (2 : Int) ^ 64 then .ok v.toNat
      else .error "panic: Failed to convert BigInt to u64"
    | .ok none => .ok final_height
  | .fromLatest => .ok final_height

/-- `hex` crate digit value: `0-9`, `a-f`, `A-F`. -/
def hexCharVal (c : Char) : Option Nat :=
  if '0' ≤ c ∧ c ≤ '9' then some (c.toNat - '0'.toNat)
  else if 'a' ≤ c ∧ c ≤ 'f' then some (c.toNat - 'a'.toNat + 10)
  else if 'A' ≤ c ∧ c ≤ 'F' then some (c.toNat - 'A'.toNat + 10)
  else none

/-- `hex::decode` over the character list: bytes from pairs of hex digits;
an odd length or an invalid digit fails. -/
def hexDecodeList : List Char → Option (List Nat)
  | [] => some []
  | [_] => none
  | c1 :: c2 :: rest =>
    match hexCharVal c1, hexCharVal c2, hexDecodeList rest with
    | some hi, some lo, some bs => some ((16 * hi + lo) :: bs)
    | _, _, _ => none

/-- `hex::decode` on a stored key string. -/
def hex_decode (s : String) : Option (List Nat) :=
  hexDecodeList s.toList

/-- `PostgresDBManager::get_state_keys_all`, as a function of the rows the
`account_state` query returned: keep the hex-decodable keys, silently drop
the rest (`filter_map(|key| hex::decode(key).ok())`). -/
def get_state_keys_all (rows : List String) :
    Except String (List (List Nat)) :=
  .ok (rows.filterMap hex_decode)

/-- `PostgresDBManager::get_state_keys_by_prefix`: the prefix narrowing runs
inside the SQL query (`models::AccountState`, outside the sources at hand),
so the rows it returned are taken as input; the hex filtering stage is the
same `filter_map` as in `get_state_keys_all`. -/
def get_state_keys_by_prefix (_pfx : List Nat) (rows : List String) :
    Except String (List (List Nat)) :=
  .ok (rows.filterMap hex_decode)

/-- `Except.isOk` spelled out, to state success of fallible operations. -/
def isOkE {ε α : Type} : Except ε α → Bool
  | .ok _ => true
  | .error _ => false

/-! ## Versioned record codec (borsh)

The canonical encoding is borsh over the current `TransactionDetails` shape:
struct fields in declaration order, `Vec<T>` as a little-endian `u32` length
followed by the elements, enums as a `u8` tag followed by the payload,
`CryptoHash` as 32 raw bytes. Byte strings are lists of naturals. -/

/-- Little-endian bytes of `n`, exactly `w` bytes wide. -/
def natToLE : Nat → Nat → List Nat
  | 0, _ => []
  | w + 1, n => n % 256 :: natToLE w (n / 256)

/-- Value of a little-endian byte list. -/
def leToNat : List Nat → Nat
  | [] => 0
  | b :: rest => b + 256 * leToNat rest

/-- Read a `w`-byte little-endian unsigned integer, returning the remainder. -/
def readUInt (w : Nat) (data : List Nat) : Option (Nat × List Nat) :=
  if w ≤ data.length then some (leToNat (data.take w), data.drop w) else none

/-- Read `k` raw bytes, returning them and the remainder. -/
def readBytesN (k : Nat) (data : List Nat) : Option (List Nat × List Nat) :=
  if k ≤ data.length then some (data.take k, data.drop k) else none

/-- Borsh `Vec<u8>` / `String`: `u32` length then the raw bytes. -/
def encBytes (bs : List Nat) : List Nat :=
  natToLE 4 bs.length ++ bs

/-- Read a borsh `Vec<u8>` / `String`. -/
def readBytesVec (data : List Nat) : Option (List Nat × List Nat) :=
  match readUInt 4 data with
  | none => none
  | some (len, rest) => readBytesN len rest

/-- Read `count` consecutive elements with the element reader `dec`. -/
def readList {α : Type} (dec : List Nat → Option (α × List Nat)) :
    Nat → List Nat → Option (List α × List Nat)
  | 0, data => some ([], data)
  | count + 1, data =>
    match dec data with
    | none => none
    | some (a, rest) =>
      match readList dec count rest with
      | none => none
      | some (as, r) => some (a :: as, r)

/-- Borsh `Vec<T>`: `u32` length then the encoded elements. -/
def encVec {α : Type} (enc : α → List Nat) (l : List α) : List Nat :=
  natToLE 4 l.length ++ (l.map enc).flatten

/-- Read a borsh `Vec<T>`. -/
def readVec {α : Type} (dec : List Nat → Option (α × List Nat))
    (data : List Nat) : Option (List α × List Nat) :=
  match readUInt 4 data with
  | none => none
  | some (len, rest) => readList dec len rest

/-- `CryptoHash`: 32 raw little-endian bytes. -/
def encCryptoHash (h : CryptoHash) : List Nat :=
  natToLE 32 h

/-- Read a `CryptoHash`. -/
def readCryptoHash (data : List Nat) : Option (CryptoHash × List Nat) :=
  readUInt 32 data

/-- Encode the reduced `ReceiptView`. -/
def encReceiptView (rv : ReceiptView) : List Nat :=
  encCryptoHash rv.receipt_id

/-- Read the reduced `ReceiptView`. -/
def readReceiptView (data : List Nat) : Option (ReceiptView × List Nat) :=
  match readCryptoHash data with
  | none => none
  | some (h, rest) => some ({ receipt_id := h }, rest)

/-- Encode `ExecutionStatusView`: tag byte then payload (variant order as
upstream: `Unknown`, `Failure`, `SuccessValue`, `SuccessReceiptId`). -/
def encExecutionStatusView : ExecutionStatusView → List Nat
  | .unknown => [0]
  | .failure e => 1 :: encBytes e
  | .successValue v => 2 :: encBytes v
  | .successReceiptId i => 3 :: encCryptoHash i

/-- Read `ExecutionStatusView`. -/
def readExecutionStatusView (data : List Nat) :
    Option (ExecutionStatusView × List Nat) :=
  match data with
  | 0 :: rest => some (.unknown, rest)
  | 1 :: rest =>
    match readBytesVec rest with
    | none => none
    | some (e, r) => some (.failure e, r)
  | 2 :: rest =>
    match readBytesVec rest with
    | none => none
    | some (v, r) => some (.successValue v, r)
  | 3 :: rest =>
    match readCryptoHash rest with
    | none => none
    | some (i, r) => some (.successReceiptId i, r)
  | _ => none

/-- Encode the reduced `ExecutionOutcomeView` (field order as upstream:
`receipt_ids` before `status`). -/
def encExecutionOutcomeView (o : ExecutionOutcomeView) : List Nat :=
  encVec encCryptoHash o.receipt_ids ++ encExecutionStatusView o.status

/-- Read the reduced `ExecutionOutcomeView`. -/
def readExecutionOutcomeView (data : List Nat) :
    Option (ExecutionOutcomeView × List Nat) :=
  match readVec readCryptoHash data with
  | none => none
  | some (receipt_ids, d1) =>
    match readExecutionStatusView d1 with
    | none => none
    | some (status, d2) => some ({ receipt_ids, status }, d2)

/-- Encode the reduced `ExecutionOutcomeWithIdView`. -/
def encExecutionOutcomeWithIdView (ow : ExecutionOutcomeWithIdView) :
    List Nat :=
  encCryptoHash ow.id ++ encExecutionOutcomeView ow.outcome

/-- Read the reduced `ExecutionOutcomeWithIdView`. -/
def readExecutionOutcomeWithIdView (data : List Nat) :
    Option (ExecutionOutcomeWithIdView × List Nat) :=
  match readCryptoHash data with
  | none => none
  | some (id, d1) =>
    match readExecutionOutcomeView d1 with
    | none => none
    | some (outcome, d2) => some ({ id, outcome }, d2)

/-- Encode the reduced `SignedTransactionView` (`hash`, `signer_id`,
`receiver_id`, the fields the spec's data model lists). -/
def encSignedTransactionView (t : SignedTransactionView) : List Nat :=
  encCryptoHash t.hash ++ encBytes t.signer_id ++ encBytes t.receiver_id

/-- Read the reduced `SignedTransactionView`. -/
def readSignedTransactionView (data : List Nat) :
    Option (SignedTransactionView × List Nat) :=
  match readCryptoHash data with
  | none => none
  | some (hash, d1) =>
    match readBytesVec d1 with
    | none => none
    | some (signer_id, d2) =>
      match readBytesVec d2 with
      | none => none
      | some (receiver_id, d3) => some ({ hash, signer_id, receiver_id }, d3)

/-- Encode `FinalExecutionStatus` (variant order as upstream: `NotStarted`,
`Started`, `Failure`, `SuccessValue`). -/
def encFinalExecutionStatus : FinalExecutionStatus → List Nat
  | .notStarted => [0]
  | .started => [1]
  | .failure e => 2 :: encBytes e
  | .successValue v => 3 :: encBytes v

/-- Read `FinalExecutionStatus`. -/
def readFinalExecutionStatus (data : List Nat) :
    Option (FinalExecutionStatus × List Nat) :=
  match data with
  | 0 :: rest => some (.notStarted, rest)
  | 1 :: rest => some (.started, rest)
  | 2 :: rest =>
    match readBytesVec rest with
    | none => none
    | some (e, r) => some (.failure e, r)
  | 3 :: rest =>
    match readBytesVec rest with
    | none => none
    | some (v, r) => some (.successValue v, r)
  | _ => none

/-- `BorshSerialize::try_to_vec` on `TransactionDetails`: fields in the
struct's declaration order. This is the serialization
`ScyllaDBManager::add_transaction` persists. -/
def try_to_vec (td : TransactionDetails) : List Nat :=
  encVec encReceiptView td.receipts ++
  encVec encExecutionOutcomeWithIdView td.receipts_outcome ++
  encFinalExecutionStatus td.status ++
  encSignedTransactionView td.transaction ++
  encExecutionOutcomeWithIdView td.transaction_outcome

/-- Read the current `TransactionDetails` shape, returning the remainder. -/
def readTransactionDetails (data : List Nat) :
    Option (TransactionDetails × List Nat) :=
  match readVec readReceiptView data with
  | none => none
  | some (receipts, d1) =>
    match readVec readExecutionOutcomeWithIdView d1 with
    | none => none
    | some (receipts_outcome, d2) =>
      match readFinalExecutionStatus d2 with
      | none => none
      | some (status, d3) =>
        match readSignedTransactionView d3 with
        | none => none
        | some (transaction, d4) =>
          match readExecutionOutcomeWithIdView d4 with
          | none => none
          | some (transaction_outcome, d5) =>
            some ({ receipts, receipts_outcome, status, transaction,
                    transaction_outcome }, d5)

/-- `borsh::from_slice::<TransactionDetails>`: decode as the current shape and
require every byte to be consumed. -/
def borshDecodeCurrent (data : List Nat) : Option TransactionDetails :=
  match readTransactionDetails data with
  | some (td, []) => some td
  | _ => none

/-- The historical-variant machinery of `TransactionDetailsOldVersion`,
parametric in the four variant payload types (their decoders live in external
crate versions): borsh decoders for `V0201`, `V0212`, `V0220`, `V0230` and
the `to_latest` re-projection of each through the serde-JSON intermediate,
which may fail. -/
structure OldVersionCodecs (α β γ δ : Type) where
  decodeV0201 : List Nat → Option α
  decodeV0212 : List Nat → Option β
  decodeV0220 : List Nat → Option γ
  decodeV0230 : List Nat → Option δ
  toLatestV0201 : α → Except String TransactionDetails
  toLatestV0212 : β → Except String TransactionDetails
  toLatestV0220 : γ → Except String TransactionDetails
  toLatestV0230 : δ → Except String TransactionDetails

/-- `enum TransactionDetailsOldVersion`. -/
inductive TransactionDetailsOldVersion (α β γ δ : Type) where
  | V0201 (t : α)
  | V0212 (t : β)
  | V0220 (t : γ)
  | V0230 (t : δ)

/-- `TransactionDetailsOldVersion::borsh_deserialize`: try the historical
variants oldest first, nested exactly as in the source. -/
def oldVersionBorshDeserialize {α β γ δ : Type}
    (C : OldVersionCodecs α β γ δ) (data : List Nat) :
    Except String (TransactionDetailsOldVersion α β γ δ) :=
  match C.decodeV0201 data with
  | some t => .ok (.V0201 t)
  | none =>
    match C.decodeV0212 data with
    | some t => .ok (.V0212 t)
    | none =>
      match C.decodeV0220 data with
      | some t => .ok (.V0220 t)
      | none =>
        match C.decodeV0230 data with
        | some t => .ok (.V0230 t)
        | none => .error "Failed to deserialize TransactionDetails"

/-- `TransactionDetailsOldVersion::to_latest`. -/
def oldVersionToLatest {α β γ δ : Type} (C : OldVersionCodecs α β γ δ) :
    TransactionDetailsOldVersion α β γ δ → Except String TransactionDetails
  | .V0201 t => C.toLatestV0201 t
  | .V0212 t => C.toLatestV0212 t
  | .V0220 t => C.toLatestV0220 t
  | .V0230 t => C.toLatestV0230 t

/-- `TransactionDetails::borsh_deserialize`: decode as current; on failure
delegate to the historical variants and re-project (`?` propagates the
old-version decode error). -/
def TransactionDetails.borsh_deserialize {α β γ δ : Type}
    (C : OldVersionCodecs α β γ δ) (data : List Nat) :
    Except String TransactionDetails :=
  match borshDecodeCurrent data with
  | some td => .ok td
  | none =>
    match oldVersionBorshDeserialize C data with
    | .ok old => oldVersionToLatest C old
    | .error e => .error e

/-- Serialization well-formedness of a status payload: vector lengths fit in
a `u32`, hashes in 32 bytes. -/
def wfStatusView : ExecutionStatusView → Bool
  | .unknown => true
  | .failure e => e.length < 256 ^ 4
  | .successValue v => v.length < 256 ^ 4
  | .successReceiptId i => i < 256 ^ 32

/-- Serialization well-formedness of a reduced `ExecutionOutcomeView`. -/
def wfOutcomeView (o : ExecutionOutcomeView) : Bool :=
  o.receipt_ids.all (fun i => i < 256 ^ 32) &&
  o.receipt_ids.length < 256 ^ 4 && wfStatusView o.status

/-- Serialization well-formedness of a reduced `ExecutionOutcomeWithIdView`. -/
def wfOutcomeWithId (ow : ExecutionOutcomeWithIdView) : Bool :=
  ow.id < 256 ^ 32 && wfOutcomeView ow.outcome

/-- Serialization well-formedness of a reduced `SignedTransactionView`. -/
def wfTransactionView (t : SignedTransactionView) : Bool :=
  t.hash < 256 ^ 32 && t.signer_id.length < 256 ^ 4 &&
  t.receiver_id.length < 256 ^ 4

/-- Serialization well-formedness of a `FinalExecutionStatus`. -/
def wfFinalStatus : FinalExecutionStatus → Bool
  | .notStarted => true
  | .started => true
  | .failure e => e.length < 256 ^ 4
  | .successValue v => v.length < 256 ^ 4

/-- Serialization well-formedness of a `TransactionDetails` record: every
hash fits in 32 bytes and every vector length in a `u32`. -/
def wfTransactionDetails (td : TransactionDetails) : Bool :=
  td.receipts.all (fun r => r.receipt_id < 256 ^ 32) &&
  td.receipts.length < 256 ^ 4 &&
  td.receipts_outcome.all wfOutcomeWithId &&
  td.receipts_outcome.length < 256 ^ 4 &&
  wfFinalStatus td.status && wfTransactionView td.transaction &&
  wfOutcomeWithId td.transaction_outcome

/-! ## Concrete instances used by counterexamples and witnesses -/

/-- An entry whose outcome chain is complete but stored out of order: the
outcome resolving receipt `3` sits before the outcome resolving receipt `2`
that spawns it. -/
def c2entry : CollectingTransactionDetails :=
  { transaction := { hash := 1, signer_id := [97], receiver_id := [98] }
    receipts := []
    execution_outcomes :=
      [ { id := 1, outcome := { receipt_ids := [2],
                                status := .successReceiptId 2 } }
      , { id := 3, outcome := { receipt_ids := [],
                                status := .successValue [1] } }
      , { id := 2, outcome := { receipt_ids := [3],
                                status := .successReceiptId 3 } } ]
    block_height := 100 }

/-- An entry whose walk reaches `Unknown` while holding two outcomes. -/
def c3entry : CollectingTransactionDetails :=
  { transaction := { hash := 1, signer_id := [97], receiver_id := [97] }
    receipts := []
    execution_outcomes :=
      [ { id := 1, outcome := { receipt_ids := [2], status := .unknown } }
      , { id := 2, outcome := { receipt_ids := [], status := .unknown } } ]
    block_height := 1 }

/-- An indexed transaction used to exercise `from_indexer_tx`. -/
def c7tx : IndexerTransactionWithOutcome :=
  { transaction := { hash := 7, signer_id := [97], receiver_id := [98] }
    outcome :=
      { execution_outcome :=
          { id := 7, outcome := { receipt_ids := [],
                                  status := .successValue [42] } } } }

/-- The entry seeded from `c7tx` at height 100. -/
def c7entry : CollectingTransactionDetails :=
  CollectingTransactionDetails.from_indexer_tx c7tx 100

/-- The frozen record `c7entry` finalizes into. -/
def c7details : TransactionDetails :=
  { receipts := []
    receipts_outcome := []
    status := .successValue [42]
    transaction := { hash := 7, signer_id := [97], receiver_id := [98] }
    transaction_outcome :=
      { id := 7, outcome := { receipt_ids := [],
                              status := .successValue [42] } } }

/-- A self-send record with two downstream receipts, the first of which is the
local receipt named by the transaction outcome's first receipt id. -/
def c6details : TransactionDetails :=
  { receipts := [{ receipt_id := 5 }, { receipt_id := 6 }]
    receipts_outcome :=
      [ { id := 5, outcome := { receipt_ids := [],
                                status := .successValue [1] } } ]
    status := .successValue [1]
    transaction := { hash := 1, signer_id := [97], receiver_id := [97] }
    transaction_outcome :=
      { id := 1, outcome := { receipt_ids := [5],
                              status := .successReceiptId 5 } } }

/-- The projection of `c6details`: the local receipt `5` is dropped. -/
def c6out : FinalExecutionOutcomeWithReceiptView :=
  { final_outcome :=
      { status := .successValue [1]
        transaction := { hash := 1, signer_id := [97], receiver_id := [97] }
        transaction_outcome :=
          { id := 1, outcome := { receipt_ids := [5],
                                  status := .successReceiptId 5 } }
        receipts_outcome :=
          [ { id := 5, outcome := { receipt_ids := [],
                                    status := .successValue [1] } } ] }
    receipts := [{ receipt_id := 6 }] }

/-- A self-send record whose transaction outcome spawned no receipt and whose
receipt list is empty. -/
def c9details : TransactionDetails :=
  { receipts := []
    receipts_outcome := []
    status := .successValue []
    transaction := { hash := 1, signer_id := [97], receiver_id := [97] }
    transaction_outcome :=
      { id := 1, outcome := { receipt_ids := [], status := .successValue [] } } }

/-- Historical-variant machinery whose decoders all fail: the shape of the
codec environment when only current-version bytes are in play. -/
def trivialOldCodecs : OldVersionCodecs Unit Unit Unit Unit :=
  { decodeV0201 := fun _ => none
    decodeV0212 := fun _ => none
    decodeV0220 := fun _ => none
    decodeV0230 := fun _ => none
    toLatestV0201 := fun _ => .error "no conversion"
    toLatestV0212 := fun _ => .error "no conversion"
    toLatestV0220 := fun _ => .error "no conversion"
    toLatestV0230 := fun _ => .error "no conversion" }

/-- A small current-version record with every field populated. -/
def c4details : TransactionDetails :=
  { receipts := [{ receipt_id := 2 }]
    receipts_outcome :=
      [ { id := 2, outcome := { receipt_ids := [],
                                status := .successValue [7] } } ]
    status := .successValue [7]
    transaction := { hash := 1, signer_id := [97], receiver_id := [98] }
    transaction_outcome :=
      { id := 1, outcome := { receipt_ids := [2],
                              status := .successReceiptId 2 } } }

/-- A minimal current-version record for the fallback witness. -/
def c5details : TransactionDetails :=
  { receipts := []
    receipts_outcome := []
    status := .notStarted
    transaction := { hash := 0, signer_id := [], receiver_id := [] }
    transaction_outcome :=
      { id := 0, outcome := { receipt_ids := [], status := .unknown } } }

/-- Historical-variant machinery whose re-projections always succeed. -/
def totalOldCodecs : OldVersionCodecs Unit Unit Unit Unit :=
  { decodeV0201 := fun _ => none
    decodeV0212 := fun _ => none
    decodeV0220 := fun _ => none
    decodeV0230 := fun _ => none
    toLatestV0201 := fun _ => .ok c5details
    toLatestV0212 := fun _ => .ok c5details
    toLatestV0220 := fun _ => .ok c5details
    toLatestV0230 := fun _ => .ok c5details }

/-- Stored state keys: one decodable hex string, one non-hex string, one
odd-length string. -/
def c10rows : List String :=
  ["0aff", "zz", "1"]

/-- The keys that survive hex decoding of `c10rows`. -/
def c10keys : List (List Nat) :=
  [[10, 255]]

/-! ## Theorems -/

/-- C1 counterexample: collecting the block's transaction details fails
(`tx_result` is an error), the cursor write itself succeeds, and the driver
still advances the per-indexer cursor from 41 to 42 and reports the block as
processed — the claim says a collection failure leaves the cursor alone. -/
theorem c1_counterexample :
    handle_streamer_message (.error "collecting transaction details failed")
      true 42 (some 41) = (some 42, .ok 42) := by
  rfl

/-- C1 (amended): `handle_streamer_message` advances the cursor whenever the
cursor write itself succeeds, regardless of the collection outcome, which is
only logged; only a failing cursor write leaves the cursor unchanged and
fails the block. -/
theorem c1_cursor_advance (tx_result : Except String Unit)
    (block_height : Nat) (meta : Option Nat) :
    handle_streamer_message tx_result true block_height meta =
      (some block_height, .ok block_height) ∧
    handle_streamer_message tx_result false block_height meta =
      (meta, .error "update_meta failed") := by
  cases tx_result <;> exact ⟨rfl, rfl⟩

/-- C8: the starting block height is the explicit height under from-height;
under from-interruption it is the stored cursor when the meta row exists (and
fits a `u64`), and the chain's final block height when it does not; under
from-latest it is the chain's final block height. -/
theorem c8_start_height (query_row : Except String (Option Int))
    (final_height height : Nat) (v : Int)
    (hv : 0 ≤ v ∧ v < (2 : Int) ^ 64) :
    get_start_block_height (.fromBlock height) query_row final_height =
      .ok height ∧
    get_start_block_height .fromInterruption (.ok (some v)) final_height =
      .ok v.toNat ∧
    get_start_block_height .fromInterruption (.ok none) final_height =
      .ok final_height ∧
    get_start_block_height .fromLatest query_row final_height =
      .ok final_height := by
  refine ⟨rfl, ?_, rfl, rfl⟩
  show (if 0 ≤ v ∧ v < (2 : Int) ^ 64 then Except.ok v.toNat
    else Except.error "panic: Failed to convert BigInt to u64") = .ok v.toNat
  rw [if_pos hv]

/-- C8 witness: a stored cursor of 1000 is used under from-interruption. -/
theorem c8_witness :
    ((0 : Int) ≤ 1000 ∧ (1000 : Int) < 2 ^ 64) ∧
    (get_start_block_height (.fromBlock 7) (.error "query failed") 500 =
        .ok 7 ∧
      get_start_block_height .fromInterruption (.ok (some 1000)) 500 =
        .ok (1000 : Int).toNat ∧
      get_start_block_height .fromInterruption (.ok none) 500 = .ok 500 ∧
      get_start_block_height .fromLatest (.error "query failed") 500 =
        .ok 500) :=
  ⟨by decide, c8_start_height (.error "query failed") 500 7 1000 (by decide)⟩

/-- C10: listing state keys never fails; the returned keys are exactly the
hex-decodable stored keys (a key that is not valid hex is silently dropped),
and the by-prefix variant applies the same filtering to the rows its query
returned. -/
theorem c10_state_keys (rows : List String) (pfxbytes : List Nat)
    (l : List (List Nat)) (hl : get_state_keys_all rows = .ok l) :
    get_state_keys_by_prefix pfxbytes rows = .ok l ∧
    (∀ k ∈ rows, ∀ b, hex_decode k = some b → b ∈ l) ∧
    (∀ b ∈ l, ∃ k ∈ rows, hex_decode k = some b) ∧
    (∀ rows2 : List String, isOkE (get_state_keys_all rows2) = true ∧
      isOkE ( get_state_keys_by_prefix pfxbytes rows2) = true) := by
  have hl' : l = rows.filterMap hex_decode := by
    simpa [get_state_keys_all, eq_comm] using hl
  subst hl'
  refine ⟨rfl, ?_, ?_, fun rows2 => ⟨rfl, rfl⟩⟩
  · intro k hk b hb
    exact List.mem_filterMap.mpr ⟨k, hk, hb⟩
  · intro b hb
    exact List.mem_filterMap.mp hb

/-- C10 witness: of the stored keys `"0aff"`, `"zz"`, `"1"` only the first
decodes, and both listing operations succeed with exactly that key. -/
theorem c10_witness :
    get_state_keys_all c10rows = .ok c10keys ∧
    ( get_state_keys_by_prefix [10] c10rows = .ok c10keys ∧
      (∀ k ∈ c10rows, ∀ b, hex_decode k = some b → b ∈ c10keys) ∧
      (∀ b ∈ c10keys, ∃ k ∈ c10rows, hex_decode k = some b) ∧
      (∀ rows2 : List String, isOkE (get_state_keys_all rows2) = true ∧
        isOkE ( get_state_keys_by_prefix [10] rows2) = true)) :=
  ⟨by decide, c10_state_keys c10rows [10] c10keys (by decide)⟩

/-- The single forward scan of `final_status` computes exactly the
forward-only walk relation. -/
theorem findStatusFrom_iff (n : Nat) (id : CryptoHash)
    (l : List ExecutionOutcomeWithIdView) (s : FinalExecutionStatus) :
    findStatusFrom n id l = some s ↔ ForwardWalk n id l s := by
  induction l generalizing id with
  | nil =>
    constructor
    · intro h
      simp [findStatusFrom] at h
    · intro h
      cases h
  | cons o rest ih =>
    constructor
    · intro h
      by_cases hid : o.id = id
      · rw [findStatusFrom, if_pos hid] at h
        cases hst : o.outcome.status with
        | unknown =>
          rw [hst] at h
          by_cases hn : n = 1
          · rw [if_pos hn] at h
            cases h
            exact .unknownSingle hid hst hn
          · rw [if_neg hn] at h
            cases h
            exact .unknownMulti hid hst hn
        | failure e =>
          rw [hst] at h
          cases h
          exact .failed hid hst
        | successValue v =>
          rw [hst] at h
          cases h
          exact .succeeded hid hst
        | successReceiptId next =>
          rw [hst] at h
          exact .chain hid hst ((ih _).mp h)
      · rw [findStatusFrom, if_neg hid] at h
        exact .skip hid ((ih _).mp h)
    · intro h
      cases h with
      | skip hne hw =>
        rw [findStatusFrom, if_neg hne]
        exact (ih _).mpr hw
      | unknownSingle hid hst hn =>
        rw [findStatusFrom, if_pos hid, hst, if_pos hn]
      | unknownMulti hid hst hn =>
        rw [findStatusFrom, if_pos hid, hst, if_neg hn]
      | failed hid hst =>
        rw [findStatusFrom, if_pos hid, hst]
      | succeeded hid hst =>
        rw [findStatusFrom, if_pos hid, hst]
      | chain hid hst hw =>
        rw [findStatusFrom, if_pos hid, hst]
        exact (ih _).mpr hw

/-- A concluded scan needs at least one outcome. -/
theorem findStatusFrom_ne_nil {n : Nat} {id : CryptoHash}
    {l : List ExecutionOutcomeWithIdView} {s : FinalExecutionStatus}
    (h : findStatusFrom n id l = some s) : l ≠ [] := by
  intro hl
  subst hl
  simp [findStatusFrom] at h

/-- C2 counterexample: on `c2entry` the walk the claim describes — locating a
matching outcome wherever it sits in the list — concludes with
`SuccessValue`, but `final_status` returns `none`, because the outcome
resolving the next receipt id sits before the position the forward scan has
reached. -/
theorem c2_counterexample :
    CollectingTransactionDetails.final_status c2entry = none ∧
    finalStatusSpecWalk 4 c2entry.transaction.hash
      c2entry.execution_outcomes.length c2entry.execution_outcomes =
      some (.successValue [1]) := by
  decide

/-- C2 (amended): `final_status` performs the finality walk as a single
forward scan of the outcome list: skipping non-matching outcomes, resolving
`Unknown` as `NotStarted` when the entry holds exactly one outcome and
`Started` otherwise, returning the final status on `Failure` or
`SuccessValue`, and on `SuccessReceiptId` continuing the search strictly
after the matched position; it returns `none` exactly when no such
forward-only walk concludes. -/
theorem c2_final_status_forward_walk (c : CollectingTransactionDetails)
    (s : FinalExecutionStatus) :
    c.final_status = some s ↔
    ForwardWalk c.execution_outcomes.length c.transaction.hash
      c.execution_outcomes s :=
  findStatusFrom_iff _ _ _ _

/-- C3 counterexample: on `c3entry` the chain starting at the transaction
hash reaches `Unknown` while the entry holds two outcomes — not one of the
definitive terminations the claim lists — yet `to_final_transaction_result`
returns the frozen record (with status `Started`) instead of an error. -/
theorem c3_counterexample :
    isOkE (CollectingTransactionDetails.to_final_transaction_result c3entry) =
      true ∧
    CollectingTransactionDetails.final_status c3entry = some .started := by
  decide

/-- C3 (amended): `to_final_transaction_result` returns the frozen
`TransactionDetails` exactly when the finality walk concludes with any final
status — `Failure`, `SuccessValue`, `NotStarted`, or also `Started` when the
walk reaches `Unknown` with more than one outcome — and returns the error
`Results should resolve to a final outcome` when the walk cannot conclude. -/
theorem c3_finalize_iff (c : CollectingTransactionDetails) :
    isOkE c.to_final_transaction_result = c.final_status.isSome ∧
    (c.final_status = none →
      c.to_final_transaction_result =
        .error "Results should resolve to a final outcome") := by
  constructor
  · cases hfs : c.final_status with
    | none =>
      simp [CollectingTransactionDetails.to_final_transaction_result, hfs,
        isOkE]
    | some s =>
      cases hl : c.execution_outcomes with
      | nil =>
        exfalso
        have h0 : findStatusFrom c.execution_outcomes.length
            c.transaction.hash c.execution_outcomes = some s := hfs
        rw [hl] at h0
        simp [findStatusFrom] at h0
      | cons o rest =>
        simp [CollectingTransactionDetails.to_final_transaction_result, hfs,
          hl, isOkE]
  · intro hfs
    simp [CollectingTransactionDetails.to_final_transaction_result, hfs]

/-- With distinct signer and receiver the filter keeps every receipt. -/
theorem filterLocalReceipts_false (fid : Option CryptoHash)
    (l : List ReceiptView) : filterLocalReceipts false fid l = some l := by
  induction l with
  | nil => rfl
  | cons r rest ih => simp [filterLocalReceipts, ih]

/-- With coinciding signer and receiver and a present first receipt id, the
filter keeps exactly the receipts with a different id, in order. -/
theorem filterLocalReceipts_some (h0 : CryptoHash) (l : List ReceiptView) :
    filterLocalReceipts true (some h0) l =
      some (l.filter fun r => decide (r.receipt_id ≠ h0)) := by
  induction l with
  | nil => rfl
  | cons r rest ih =>
    by_cases h : r.receipt_id = h0 <;>
      simp [filterLocalReceipts, ih, List.filter, h]

/-- The filter reaches the `expect` panic exactly when the local-receipt
branch is taken, the first receipt id is absent, and there is at least one
receipt to test. -/
theorem filterLocalReceipts_none_iff (same : Bool) (fid : Option CryptoHash)
    (l : List ReceiptView) :
    filterLocalReceipts same fid l = none ↔
      same = true ∧ fid = none ∧ l ≠ [] := by
  induction l with
  | nil => simp [filterLocalReceipts]
  | cons r rest ih =>
    cases same with
    | false => simp [filterLocalReceipts_false]
    | true =>
      cases fid with
      | none => simp [filterLocalReceipts]
      | some h0 => simp [filterLocalReceipts_some]

/-- C6: when the projection succeeds, it keeps every receipt unchanged if
signer and receiver differ, and with coinciding signer and receiver it keeps,
in their original order, exactly the receipts whose id differs from the first
entry of the transaction outcome's `receipt_ids`; the output is always a
sublist of the stored receipts. -/
theorem c6_local_receipt_filter (td : TransactionDetails)
    (out : FinalExecutionOutcomeWithReceiptView)
    (hok : td.to_final_execution_outcome_with_receipts = some out) :
    (td.transaction.signer_id ≠ td.transaction.receiver_id →
      out.receipts = td.receipts) ∧
    (∀ h0, td.transaction.signer_id = td.transaction.receiver_id →
      td.transaction_outcome.outcome.receipt_ids.head? = some h0 →
      out.receipts = td.receipts.filter fun r => decide (r.receipt_id ≠ h0)) ∧
    out.receipts.Sublist td.receipts := by
  unfold TransactionDetails.to_final_execution_outcome_with_receipts at hok
  by_cases hsr : td.transaction.signer_id = td.transaction.receiver_id
  · rw [decide_eq_true hsr] at hok
    cases hh : td.transaction_outcome.outcome.receipt_ids.head? with
    | none =>
      rw [hh] at hok
      cases hrec : td.receipts with
      | nil =>
        rw [hrec] at hok
        simp only [filterLocalReceipts, Option.some.injEq] at hok
        refine ⟨fun hne => absurd hsr hne, fun h0 _ hh0 => ?_, ?_⟩
        · exact Option.noConfusion hh0
        · rw [← hok]
      | cons r rest =>
        rw [hrec] at hok
        simp [filterLocalReceipts] at hok
    | some h0 =>
      rw [hh, filterLocalReceipts_some] at hok
      simp only [Option.some.injEq] at hok
      refine ⟨fun hne => absurd hsr hne, fun h1 _ hh1 => ?_, ?_⟩
      · cases hh1
        rw [← hok]
      · rw [← hok]
        exact List.filter_sublist td.receipts
  · rw [decide_eq_false hsr, filterLocalReceipts_false] at hok
    simp only [Option.some.injEq] at hok
    refine ⟨fun _ => by rw [← hok], fun h0 hsr2 _ => absurd hsr2 hsr, ?_⟩
    rw [← hok]

/-- C6 witness: a self-send with receipts `5` and `6` and first spawned
receipt id `5` projects to receipts `[6]`, in order and as a sublist. -/
theorem c6_witness :
    TransactionDetails.to_final_execution_outcome_with_receipts c6details =
      some c6out ∧
    ((c6details.transaction.signer_id ≠ c6details.transaction.receiver_id →
        c6out.receipts = c6details.receipts) ∧
      (∀ h0, c6details.transaction.signer_id =
          c6details.transaction.receiver_id →
        c6details.transaction_outcome.outcome.receipt_ids.head? = some h0 →
        c6out.receipts =
          c6details.receipts.filter fun r => decide (r.receipt_id ≠ h0)) ∧
      c6out.receipts.Sublist c6details.receipts) :=
  ⟨by decide, c6_local_receipt_filter c6details c6out (by decide)⟩

/-- C9 counterexample: on `c9details` the signer equals the receiver and the
transaction outcome's `receipt_ids` is empty, yet the projection completes
without reaching the `expect` panic, because the receipt list is empty and
the panicking closure is never evaluated. -/
theorem c9_counterexample :
    (TransactionDetails.to_final_execution_outcome_with_receipts
        c9details).isSome = true ∧
    c9details.transaction.signer_id = c9details.transaction.receiver_id ∧
    c9details.transaction_outcome.outcome.receipt_ids = [] := by
  decide

/-- C9 (amended): the projection panics (the `expect` on
`receipt_ids.first()` fails) exactly when the signer equals the receiver, the
transaction outcome's `receipt_ids` is empty, and at least one receipt is
present for the filter closure to test; in every other case — distinct signer
and receiver, a non-empty `receipt_ids`, or an empty receipt list — it
completes. -/
theorem c9_panic_iff (td : TransactionDetails) :
    td.to_final_execution_outcome_with_receipts = none ↔
      td.transaction.signer_id = td.transaction.receiver_id ∧
      td.transaction_outcome.outcome.receipt_ids = [] ∧
      td.receipts ≠ [] := by
  unfold TransactionDetails.to_final_execution_outcome_with_receipts
  cases hf : filterLocalReceipts
      (decide (td.transaction.signer_id = td.transaction.receiver_id))
      td.transaction_outcome.outcome.receipt_ids.head? td.receipts with
  | none =>
    rw [filterLocalReceipts_none_iff] at hf
    simp only [decide_eq_true_eq, List.head?_eq_none_iff] at hf
    simpa using hf
  | some l =>
    constructor
    · intro h
      exact absurd h (by simp)
    · rintro ⟨h1, h2, h3⟩
      exfalso
      have hnone : filterLocalReceipts
          (decide (td.transaction.signer_id = td.transaction.receiver_id))
          td.transaction_outcome.outcome.receipt_ids.head? td.receipts =
          none := by
        rw [filterLocalReceipts_none_iff]
        refine ⟨decide_eq_true h1, ?_, h3⟩
        rw [h2]
        rfl
      exact Option.noConfusion (hnone.symm.trans hf)

/-- C7: an entry created by `from_indexer_tx` starts with no receipts, a
single outcome — the transaction's own — and the given anchor block height;
and every entry that freezes successfully takes its `transaction_outcome`
from the first element of the outcome list, its `receipts_outcome` from the
remaining elements in order, and carries the entry's receipts and
transaction over unchanged. -/
theorem c7_seed_and_freeze (tx : IndexerTransactionWithOutcome)
    (height : Nat) (c : CollectingTransactionDetails)
    (td : TransactionDetails)
    (hok : c.to_final_transaction_result = .ok td) :
    (CollectingTransactionDetails.from_indexer_tx tx height).receipts = [] ∧
    (CollectingTransactionDetails.from_indexer_tx tx height).execution_outcomes
      = [tx.outcome.execution_outcome] ∧
    (CollectingTransactionDetails.from_indexer_tx tx height).block_height =
      height ∧
    c.execution_outcomes = td.transaction_outcome :: td.receipts_outcome ∧
    td.receipts = c.receipts ∧ td.transaction = c.transaction := by
  refine ⟨rfl, rfl, rfl, ?_⟩
  unfold CollectingTransactionDetails.to_final_transaction_result at hok
  cases hfs : c.final_status with
  | none =>
    rw [hfs] at hok
    exact Except.noConfusion hok
  | some s =>
    rw [hfs] at hok
    cases hl : c.execution_outcomes with
    | nil =>
      rw [hl] at hok
      exact Except.noConfusion hok
    | cons o rest =>
      rw [hl] at hok
      obtain rfl := Except.ok.inj hok
      exact ⟨rfl, rfl, rfl⟩

/-- C7 witness: the entry seeded from `c7tx` freezes into `c7details`, whose
transaction outcome is the seeded outcome and whose receipt outcomes are
empty. -/
theorem c7_witness :
    CollectingTransactionDetails.to_final_transaction_result c7entry =
      .ok c7details ∧
    ((CollectingTransactionDetails.from_indexer_tx c7tx 100).receipts = [] ∧
      (CollectingTransactionDetails.from_indexer_tx c7tx
          100).execution_outcomes = [c7tx.outcome.execution_outcome] ∧
      (CollectingTransactionDetails.from_indexer_tx c7tx 100).block_height =
        100 ∧
      c7entry.execution_outcomes =
        c7details.transaction_outcome :: c7details.receipts_outcome ∧
      c7details.receipts = c7entry.receipts ∧
      c7details.transaction = c7entry.transaction) :=
  ⟨by decide, c7_seed_and_freeze c7tx 100 c7entry c7details (by decide)⟩

/-- A fixed-width little-endian encoding has the requested width. -/
theorem natToLE_length (w n : Nat) : (natToLE w n).length = w := by
  induction w generalizing n with
  | zero => rfl
  | succ w ih => simp [natToLE, ih]

/-- Reading back a fixed-width little-endian encoding recovers the value. -/
theorem leToNat_natToLE (w n : Nat) (hn : n < 256 ^ w) :
    leToNat (natToLE w n) = n := by
  induction w generalizing n with
  | zero =>
    simp only [pow_zero, Nat.lt_one_iff] at hn
    subst hn
    rfl
  | succ w ih =>
    rw [natToLE, leToNat, ih (n / 256)
      ((Nat.div_lt_iff_lt_mul (by norm_num)).mpr (by rwa [← pow_succ]))]
    exact Nat.mod_add_div n 256

/-- `readUInt` inverts the fixed-width encoding, leaving the remainder. -/
theorem readUInt_spec (w n : Nat) (r : List Nat) (hn : n < 256 ^ w) :
    readUInt w (natToLE w n ++ r) = some (n, r) := by
  have hlen := natToLE_length w n
  have h1 : List.take w (natToLE w n ++ r) = natToLE w n := by
    have := List.take_left (natToLE w n) r
    rwa [hlen] at this
  have h2 : List.drop w (natToLE w n ++ r) = r := by
    have := List.drop_left (natToLE w n) r
    rwa [hlen] at this
  unfold readUInt
  rw [if_pos (by simp [hlen]), h1, h2, leToNat_natToLE w n hn]

/-- `readBytesN` returns exactly the prefix of its own length. -/
theorem readBytesN_spec (bs r : List Nat) :
    readBytesN bs.length (bs ++ r) = some (bs, r) := by
  unfold readBytesN
  rw [if_pos (by simp), List.take_left, List.drop_left]

/-- Reading back a length-prefixed byte string recovers it. -/
theorem readBytesVec_spec (bs r : List Nat) (h : bs.length < 256 ^ 4) :
    readBytesVec (encBytes bs ++ r) = some (bs, r) := by
  have h1 := readUInt_spec 4 bs.length (bs ++ r) h
  have h2 := readBytesN_spec bs r
  simp [readBytesVec, encBytes, List.append_assoc, h1, h2]

/-- Reading back an encoded hash recovers it. -/
theorem readCryptoHash_spec (h : CryptoHash) (r : List Nat)
    (hh : h < 256 ^ 32) :
    readCryptoHash (encCryptoHash h ++ r) = some (h, r) :=
  readUInt_spec 32 h r hh

/-- Reading back an encoded receipt view recovers it. -/
theorem readReceiptView_spec (rv : ReceiptView) (r : List Nat)
    (h : rv.receipt_id < 256 ^ 32) :
    readReceiptView (encReceiptView rv ++ r) = some (rv, r) := by
  have h1 := readCryptoHash_spec rv.receipt_id r h
  simp [readReceiptView, encReceiptView, h1]

/-- Reading back `count` encoded elements recovers them in order. -/
theorem readList_spec {α : Type} (dec : List Nat → Option (α × List Nat))
    (enc : α → List Nat) :
    ∀ (l : List α), (∀ x ∈ l, ∀ r2, dec (enc x ++ r2) = some (x, r2)) →
      ∀ r, readList dec l.length ((l.map enc).flatten ++ r) = some (l, r)
  | [], _, r => by simp [readList]
  | a :: l, hdec, r => by
    have h1 := hdec a (List.mem_cons_self a l) ((l.map enc).flatten ++ r)
    have h2 := readList_spec dec enc l
      (fun x hx r2 => hdec x (List.mem_cons_of_mem a hx) r2) r
    simp [readList, List.append_assoc, h1, h2]

/-- Reading back an encoded vector recovers it. -/
theorem readVec_spec {α : Type} (dec : List Nat → Option (α × List Nat))
    (enc : α → List Nat) (l : List α) (r : List Nat)
    (hlen : l.length < 256 ^ 4)
    (hdec : ∀ x ∈ l, ∀ r2, dec (enc x ++ r2) = some (x, r2)) :
    readVec dec (encVec enc l ++ r) = some (l, r) := by
  have h1 := readUInt_spec 4 l.length ((l.map enc).flatten ++ r) hlen
  have h2 := readList_spec dec enc l hdec r
  simp [readVec, encVec, List.append_assoc, h1, h2]

/-- Reading back an encoded execution status recovers it. -/
theorem readExecutionStatusView_spec (s : ExecutionStatusView)
    (r : List Nat) (h : wfStatusView s = true) :
    readExecutionStatusView (encExecutionStatusView s ++ r) = some (s, r) := by
  cases s with
  | unknown => rfl
  | failure e =>
    have hb := readBytesVec_spec e r (by simpa [wfStatusView] using h)
    simp [encExecutionStatusView, readExecutionStatusView, hb]
  | successValue v =>
    have hb := readBytesVec_spec v r (by simpa [wfStatusView] using h)
    simp [encExecutionStatusView, readExecutionStatusView, hb]
  | successReceiptId i =>
    have hb := readCryptoHash_spec i r (by simpa [wfStatusView] using h)
    simp [encExecutionStatusView, readExecutionStatusView, hb]

/-- Reading back an encoded outcome view recovers it. -/
theorem readExecutionOutcomeView_spec (o : ExecutionOutcomeView)
    (r : List Nat) (h : wfOutcomeView o = true) :
    readExecutionOutcomeView (encExecutionOutcomeView o ++ r) =
      some (o, r) := by
  simp only [wfOutcomeView, Bool.and_eq_true, List.all_eq_true,
    decide_eq_true_eq] at h
  obtain ⟨⟨h1, h2⟩, h3⟩ := h
  have hv := readVec_spec readCryptoHash encCryptoHash o.receipt_ids
    (encExecutionStatusView o.status ++ r) h2
    (fun x hx r2 => readCryptoHash_spec x r2 (h1 x hx))
  have hs := readExecutionStatusView_spec o.status r h3
  simp [encExecutionOutcomeView, readExecutionOutcomeView,
    List.append_assoc, hv, hs]

/-- Reading back an encoded outcome-with-id recovers it. -/
theorem readExecutionOutcomeWithIdView_spec (ow : ExecutionOutcomeWithIdView)
    (r : List Nat) (h : wfOutcomeWithId ow = true) :
    readExecutionOutcomeWithIdView (encExecutionOutcomeWithIdView ow ++ r) =
      some (ow, r) := by
  simp only [wfOutcomeWithId, Bool.and_eq_true, decide_eq_true_eq] at h
  obtain ⟨h1, h2⟩ := h
  have hid := readCryptoHash_spec ow.id
    (encExecutionOutcomeView ow.outcome ++ r) h1
  have ho := readExecutionOutcomeView_spec ow.outcome r h2
  simp [encExecutionOutcomeWithIdView, readExecutionOutcomeWithIdView,
    List.append_assoc, hid, ho]

/-- Reading back an encoded transaction view recovers it. -/
theorem readSignedTransactionView_spec (t : SignedTransactionView)
    (r : List Nat) (h : wfTransactionView t = true) :
    readSignedTransactionView (encSignedTransactionView t ++ r) =
      some (t, r) := by
  simp only [wfTransactionView, Bool.and_eq_true, decide_eq_true_eq] at h
  obtain ⟨⟨h1, h2⟩, h3⟩ := h
  have hh := readCryptoHash_spec t.hash
    (encBytes t.signer_id ++ (encBytes t.receiver_id ++ r)) h1
  have hs := readBytesVec_spec t.signer_id (encBytes t.receiver_id ++ r) h2
  have hr := readBytesVec_spec t.receiver_id r h3
  simp [encSignedTransactionView, readSignedTransactionView,
    List.append_assoc, hh, hs, hr]

/-- Reading back an encoded final execution status recovers it. -/
theorem readFinalExecutionStatus_spec (s : FinalExecutionStatus)
    (r : List Nat) (h : wfFinalStatus s = true) :
    readFinalExecutionStatus (encFinalExecutionStatus s ++ r) =
      some (s, r) := by
  cases s with
  | notStarted => rfl
  | started => rfl
  | failure e =>
    have hb := readBytesVec_spec e r (by simpa [wfFinalStatus] using h)
    simp [encFinalExecutionStatus, readFinalExecutionStatus, hb]
  | successValue v =>
    have hb := readBytesVec_spec v r (by simpa [wfFinalStatus] using h)
    simp [encFinalExecutionStatus, readFinalExecutionStatus, hb]

/-- Reading back an encoded `TransactionDetails` recovers it, remainder
intact. -/
theorem readTransactionDetails_spec (td : TransactionDetails)
    (r : List Nat) (h : wfTransactionDetails td = true) :
    readTransactionDetails (try_to_vec td ++ r) = some (td, r) := by
  simp only [wfTransactionDetails, Bool.and_eq_true, List.all_eq_true,
    decide_eq_true_eq] at h
  obtain ⟨⟨⟨⟨⟨⟨h1, h2⟩, h3⟩, h4⟩, h5⟩, h6⟩, h7⟩ := h
  have hv1 : ∀ r2, readVec readReceiptView
      (encVec encReceiptView td.receipts ++ r2) = some (td.receipts, r2) :=
    fun r2 => readVec_spec _ _ _ r2 h2
      (fun x hx r3 => readReceiptView_spec x r3 (h1 x hx))
  have hv2 : ∀ r2, readVec readExecutionOutcomeWithIdView
      (encVec encExecutionOutcomeWithIdView td.receipts_outcome ++ r2) =
      some (td.receipts_outcome, r2) :=
    fun r2 => readVec_spec _ _ _ r2 h4
      (fun x hx r3 => readExecutionOutcomeWithIdView_spec x r3 (h3 x hx))
  have hv3 := fun r2 => readFinalExecutionStatus_spec td.status r2 h5
  have hv4 := fun r2 => readSignedTransactionView_spec td.transaction r2 h6
  have hv5 := fun r2 =>
    readExecutionOutcomeWithIdView_spec td.transaction_outcome r2 h7
  simp [try_to_vec, readTransactionDetails, List.append_assoc,
    hv1, hv2, hv3, hv4, hv5]

/-- `borsh::from_slice` accepts exactly the encoding of a well-formed
record. -/
theorem borshDecodeCurrent_spec (td : TransactionDetails)
    (h : wfTransactionDetails td = true) :
    borshDecodeCurrent (try_to_vec td) = some td := by
  have h1 := readTransactionDetails_spec td [] h
  rw [List.append_nil] at h1
  simp [borshDecodeCurrent, h1]

/-- C4: decoding the bytes produced by serializing a (serializable)
current-version `TransactionDetails` through `borsh_deserialize` yields the
record back, for every configuration of the historical-variant machinery —
the current-shape decode succeeds, so no fallback is consulted. -/
theorem c4_codec_round_trip {α β γ δ : Type} (C : OldVersionCodecs α β γ δ)
    (td : TransactionDetails) (h : wfTransactionDetails td = true) :
    TransactionDetails.borsh_deserialize C (try_to_vec td) = .ok td := by
  have hcur := borshDecodeCurrent_spec td h
  simp [TransactionDetails.borsh_deserialize, hcur]

/-- C4 witness: a concrete record with a receipt, a receipt outcome and a
chained status round-trips through the codec. -/
theorem c4_witness :
    wfTransactionDetails c4details = true ∧
    TransactionDetails.borsh_deserialize trivialOldCodecs
      (try_to_vec c4details) = .ok c4details :=
  ⟨by decide, c4_codec_round_trip trivialOldCodecs c4details (by decide)⟩

/-- C5: `borsh_deserialize` first tries the current shape; on failure it
tries the historical variants oldest first — V0201, then V0212, then V0220,
then V0230 — re-projecting the first successful historical decode through
`to_latest`; and (given that re-projection of a decoded historical record
succeeds) it returns an error exactly when the current shape and all four
historical variants fail to decode. -/
theorem c5_decode_fallback {α β γ δ : Type} (C : OldVersionCodecs α β γ δ)
    (data : List Nat)
    (htot : (∀ a, isOkE (C.toLatestV0201 a) = true) ∧
      (∀ b, isOkE (C.toLatestV0212 b) = true) ∧
      (∀ g, isOkE (C.toLatestV0220 g) = true) ∧
      (∀ d, isOkE (C.toLatestV0230 d) = true)) :
    (∀ td, borshDecodeCurrent data = some td →
      TransactionDetails.borsh_deserialize C data = .ok td) ∧
    (borshDecodeCurrent data = none →
      ∀ t, C.decodeV0201 data = some t →
        TransactionDetails.borsh_deserialize C data = C.toLatestV0201 t) ∧
    (borshDecodeCurrent data = none → C.decodeV0201 data = none →
      ∀ t, C.decodeV0212 data = some t →
        TransactionDetails.borsh_deserialize C data = C.toLatestV0212 t) ∧
    (borshDecodeCurrent data = none → C.decodeV0201 data = none →
      C.decodeV0212 data = none →
      ∀ t, C.decodeV0220 data = some t →
        TransactionDetails.borsh_deserialize C data = C.toLatestV0220 t) ∧
    (borshDecodeCurrent data = none → C.decodeV0201 data = none →
      C.decodeV0212 data = none → C.decodeV0220 data = none →
      ∀ t, C.decodeV0230 data = some t →
        TransactionDetails.borsh_deserialize C data = C.toLatestV0230 t) ∧
    (isOkE (TransactionDetails.borsh_deserialize C data) = false ↔
      borshDecodeCurrent data = none ∧ C.decodeV0201 data = none ∧
      C.decodeV0212 data = none ∧ C.decodeV0220 data = none ∧
      C.decodeV0230 data = none) := by
  obtain ⟨ht1, ht2, ht3, ht4⟩ := htot
  refine ⟨?_, ?_, ?_, ?_, ?_, ?_, ?_⟩
  · intro td hcur
    simp [TransactionDetails.borsh_deserialize, hcur]
  · intro hcur t h1
    simp [TransactionDetails.borsh_deserialize, oldVersionBorshDeserialize,
      oldVersionToLatest, hcur, h1]
  · intro hcur h1 t h2
    simp [TransactionDetails.borsh_deserialize, oldVersionBorshDeserialize,
      oldVersionToLatest, hcur, h1, h2]
  · intro hcur h1 h2 t h3
    simp [TransactionDetails.borsh_deserialize, oldVersionBorshDeserialize,
      oldVersionToLatest, hcur, h1, h2, h3]
  · intro hcur h1 h2 h3 t h4
    simp [TransactionDetails.borsh_deserialize, oldVersionBorshDeserialize,
      oldVersionToLatest, hcur, h1, h2, h3, h4]
  · intro herr
    cases hcur : borshDecodeCurrent data with
    | some td =>
      simp [TransactionDetails.borsh_deserialize, hcur, isOkE] at herr
    | none =>
      cases h1 : C.decodeV0201 data with
      | some t =>
        exfalso
        simp [TransactionDetails.borsh_deserialize,
          oldVersionBorshDeserialize, oldVersionToLatest, hcur, h1] at herr
        exact Bool.noConfusion ((ht1 t).symm.trans herr)
      | none =>
        cases h2 : C.decodeV0212 data with
        | some t =>
          exfalso
          simp [TransactionDetails.borsh_deserialize,
            oldVersionBorshDeserialize, oldVersionToLatest, hcur, h1,
            h2] at herr
          exact Bool.noConfusion ((ht2 t).symm.trans herr)
        | none =>
          cases h3 : C.decodeV0220 data with
          | some t =>
            exfalso
            simp [TransactionDetails.borsh_deserialize,
              oldVersionBorshDeserialize, oldVersionToLatest, hcur, h1, h2,
              h3] at herr
            exact Bool.noConfusion ((ht3 t).symm.trans herr)
          | none =>
            cases h4 : C.decodeV0230 data with
            | some t =>
              exfalso
              simp [TransactionDetails.borsh_deserialize,
                oldVersionBorshDeserialize, oldVersionToLatest, hcur, h1, h2,
                h3, h4] at herr
              exact Bool.noConfusion ((ht4 t).symm.trans herr)
            | none => exact ⟨rfl, rfl, rfl, rfl, rfl⟩
  · rintro ⟨hcur, h1, h2, h3, h4⟩
    simp [TransactionDetails.borsh_deserialize, oldVersionBorshDeserialize,
      hcur, h1, h2, h3, h4, isOkE]

/-- C5 witness: with total re-projections and the one-byte input `[7]` —
which no decoder accepts — the fallback chain is exercised end to end and the
error case of the equivalence holds. -/
theorem c5_witness :
    ((∀ a : Unit, isOkE (totalOldCodecs.toLatestV0201 a) = true) ∧
      (∀ b : Unit, isOkE (totalOldCodecs.toLatestV0212 b) = true) ∧
      (∀ g : Unit, isOkE (totalOldCodecs.toLatestV0220 g) = true) ∧
      (∀ d : Unit, isOkE (totalOldCodecs.toLatestV0230 d) = true)) ∧
    ((∀ td, borshDecodeCurrent [7] = some td →
        TransactionDetails.borsh_deserialize totalOldCodecs [7] = .ok td) ∧
      (borshDecodeCurrent [7] = none →
        ∀ t, totalOldCodecs.decodeV0201 [7] = some t →
          TransactionDetails.borsh_deserialize totalOldCodecs [7] =
            totalOldCodecs.toLatestV0201 t) ∧
      (borshDecodeCurrent [7] = none →
        totalOldCodecs.decodeV0201 [7] = none →
        ∀ t, totalOldCodecs.decodeV0212 [7] = some t →
          TransactionDetails.borsh_deserialize totalOldCodecs [7] =
            totalOldCodecs.toLatestV0212 t) ∧
      (borshDecodeCurrent [7] = none →
        totalOldCodecs.decodeV0201 [7] = none →
        totalOldCodecs.decodeV0212 [7] = none →
        ∀ t, totalOldCodecs.decodeV0220 [7] = some t →
          TransactionDetails.borsh_deserialize totalOldCodecs [7] =
            totalOldCodecs.toLatestV0220 t) ∧
      (borshDecodeCurrent [7] = none →
        totalOldCodecs.decodeV0201 [7] = none →
        totalOldCodecs.decodeV0212 [7] = none →
        totalOldCodecs.decodeV0220 [7] = none →
        ∀ t, totalOldCodecs.decodeV0230 [7] = some t →
          TransactionDetails.borsh_deserialize totalOldCodecs [7] =
            totalOldCodecs.toLatestV0230 t) ∧
      (isOkE (TransactionDetails.borsh_deserialize totalOldCodecs [7]) =
          false ↔
        borshDecodeCurrent [7] = none ∧
        totalOldCodecs.decodeV0201 [7] = none ∧
        totalOldCodecs.decodeV0212 [7] = none ∧
        totalOldCodecs.decodeV0220 [7] = none ∧
        totalOldCodecs.decodeV0230 [7] = none)) :=
  ⟨⟨fun _ => rfl, fun _ => rfl, fun _ => rfl, fun _ => rfl⟩,
    c5_decode_fallback totalOldCodecs [7]
      ⟨fun _ => rfl, fun _ => rfl, fun _ => rfl, fun _ => rfl⟩⟩

end ReadRpc
